import Mathlib

/-!
A shallow embedding of the PII classification-and-redaction engine from
`detector_full_anmol_vishwakarma.py`, together with theorems checking the
natural-language specification against it.

Modelling conventions:
* A record is an association list from field names to JSON-like scalar
  values (`string`, integer, boolean, `null`), matching the value domain the
  design document gives for the Detector boundary.  Python dictionaries have
  unique keys; the embedding processes each entry independently, so the
  theorems hold for all lists.
* Python code that can raise (`passport[0]`, `user[0]` on an empty local
  part) is embedded as `Option`-valued: `none` models an uncaught exception.
* Regular-expression `fullmatch` tests are embedded by their semantics over
  ASCII character classes (the patterns only use ASCII classes and the
  zero-width `\b` anchors, which at the ends of a full match require the
  first and last matched characters to be word characters).
* Python string slicing, `split`, `join` and `upper` are embedded over the
  underlying character lists.
-/

/-- JSON-like scalar value stored in a record field. -/
inductive Value where
  | str (s : String)
  | num (n : Int)
  | bool (b : Bool)
  | null
deriving DecidableEq

abbrev Record := List (String × Value)

/-- Python `str(value)`, as applied by `str(redacted_data[key])`. -/
def pyStr : Value → String
  | .str s => s
  | .num n => toString n
  | .bool b => if b then "True" else "False"
  | .null => "None"

/-- Split a character list at every character satisfying `p`, keeping empty
chunks, as Python `split` with an explicit separator does. -/
def splitAtP (p : Char → Bool) : List Char → List (List Char)
  | [] => [[]]
  | c :: cs =>
    let rest := splitAtP p cs
    if p c then [] :: rest
    else
      match rest with
      | t :: ts => (c :: t) :: ts
      | [] => [[c]]

/-- Python `value.split(sep)` for a one-character separator. -/
def splitAtSep (sep : Char) (l : List Char) : List (List Char) :=
  splitAtP (fun c => c == sep) l

/-- Python `s.split(sep)` on strings, for a one-character separator. -/
def pySplitOn (sep : Char) (s : String) : List String :=
  (splitAtSep sep s.data).map String.mk

/-- The ASCII whitespace characters recognised by Python `str.split()`. -/
def pyWhitespace (c : Char) : Bool :=
  c == ' ' || c == '\t' || c == '\n' || c == '\r' || c == '\x0b' || c == '\x0c'

/-- Python `s.split()`: split on whitespace runs, dropping empty tokens. -/
def pySplit (s : String) : List String :=
  ((splitAtP pyWhitespace s.data).filter (fun t => !t.isEmpty)).map String.mk

/-- Number of characters of `s`, Python `len(s)`. -/
def pyLen (s : String) : Nat := s.data.length

/-- Python slice `s[:n]`. -/
def strTake (s : String) (n : Nat) : String := String.mk (s.data.take n)

/-- Python slice `s[n:]` for a clamped nonnegative start index; the slices
`s[-2:]` and `s[-1:]` of the source are `strDropStart s (pyLen s - 2)` and
`strDropStart s (pyLen s - 1)` (truncated subtraction matches Python's
clamping of negative start indices on short strings). -/
def strDropStart (s : String) (n : Nat) : String := String.mk (s.data.drop n)

/-- `'*' * n` (and `'X' * n`) style repetition. -/
def stars (n : Nat) : String := String.mk (List.replicate n '*')

/-- Transform for `phone`: `f"{phone[:2]}XXXXXX{phone[-2:]}"`. -/
def redact_phone (phone : String) : String :=
  strTake phone 2 ++ "XXXXXX" ++ strDropStart phone (pyLen phone - 2)

/-- Transform for `aadhar`: `f"XXXXXXXX{aadhar[-4:]}"`. -/
def redact_aadhar (aadhar : String) : String :=
  "XXXXXXXX" ++ strDropStart aadhar (pyLen aadhar - 4)

/-- Transform for `passport`: `f"{passport[0]}XXXXX{passport[-2:]}"`.
`passport[0]` raises `IndexError` on the empty string, modelled as `none`. -/
def redact_passport (passport : String) : Option String :=
  match passport.data with
  | [] => none
  | c :: _ =>
    some (String.mk [c] ++ "XXXXX" ++ strDropStart passport (pyLen passport - 2))

/-- Transform for `email`: unpack `email.split('@')` into `(user, domain)`
(a `ValueError` from a part count other than two is caught and yields the
fixed literal), then `f"{user[0]}{'*' * (len(user) - 2)}{user[-1]}@{domain}"`.
`user[0]` raises an uncaught `IndexError` when the local part is empty,
modelled as `none`. -/
def redact_email (email : String) : Option String :=
  match pySplitOn '@' email with
  | [user, domain] =>
    match user.data with
    | [] => none
    | c :: _ =>
      some (String.mk [c] ++ stars (pyLen user - 2) ++
        strDropStart user (pyLen user - 1) ++ "@" ++ domain)
  | _ => some "[REDACTED_EMAIL]"

/-- Transform for `name`: mask every whitespace-separated token to its first
character followed by `'*' * (len(token) - 1)`, rejoined with single spaces. -/
def redact_name (name : String) : String :=
  String.intercalate " "
    ((pySplit name).map (fun p => strTake p 1 ++ stars (pyLen p - 1)))

/-- Python `s.upper()` over the ASCII field names that reach it. -/
def pyUpper (s : String) : String := String.mk (s.data.map Char.toUpper)

/-- Generic fallback mask: `f"[REDACTED_{key_name.upper()}]"`. -/
def redact_generic (key_name : String) : String :=
  "[REDACTED_" ++ pyUpper key_name ++ "]"

/-- `REDACTION_MAPPING.get(key)`: the dedicated transform for a field, if
any.  Transforms are `Option`-valued because two of them can raise. -/
def REDACTION_MAPPING (key : String) : Option (String → Option String) :=
  if key = "phone" then some (fun s => some (redact_phone s))
  else if key = "aadhar" then some (fun s => some (redact_aadhar s))
  else if key = "passport" then some redact_passport
  else if key = "email" then some redact_email
  else if key = "name" then some (fun s => some (redact_name s))
  else none

/-- Fullmatch semantics of `\b\d{10}\b`: exactly ten ASCII digits. -/
def phone_fullmatch (s : String) : Bool :=
  s.data.length == 10 && s.data.all Char.isDigit

/-- Fullmatch semantics of `\b\d{12}\b`: exactly twelve ASCII digits. -/
def aadhar_fullmatch (s : String) : Bool :=
  s.data.length == 12 && s.data.all Char.isDigit

/-- Fullmatch semantics of `\b[A-Z]{1}[0-9]{7}\b`: one uppercase letter then
seven digits. -/
def passport_fullmatch (s : String) : Bool :=
  match s.data with
  | [] => false
  | c :: rest => c.isUpper && rest.length == 7 && rest.all Char.isDigit

/-- Regex word character (`\w`, ASCII): letter, digit or underscore. -/
def wordChar (c : Char) : Bool := c.isAlpha || c.isDigit || c == '_'

/-- Character class `[a-zA-Z0-9._%+-]` of the UPI pattern's local part. -/
def upiLocalChar (c : Char) : Bool :=
  c.isAlpha || c.isDigit || c == '.' || c == '_' || c == '%' || c == '+' || c == '-'

/-- Character class `[a-zA-Z0-9.-]` of the UPI pattern's domain part. -/
def upiDomainChar (c : Char) : Bool :=
  c.isAlpha || c.isDigit || c == '.' || c == '-'

/-- Fullmatch semantics of `\b[a-zA-Z0-9._%+-]+@[a-zA-Z0-9.-]+\b`: both
character classes exclude `'@'`, so the string must contain exactly one `'@'`
separating a nonempty local part and a nonempty domain drawn from the two
classes, and the outer `\b` anchors force the first and last characters of
the whole match to be word characters. -/
def upi_fullmatch (s : String) : Bool :=
  match splitAtSep '@' s.data with
  | [u, d] =>
    !u.isEmpty && !d.isEmpty && u.all upiLocalChar && d.all upiDomainChar &&
    (match u with | c :: _ => wordChar c | [] => false) &&
    (match d.getLast? with | some c => wordChar c | none => false)
  | _ => false

/-- `REGEX_PATTERNS[key].fullmatch(value)` for the standalone categories
(the only keys the standalone pass ever tests). -/
def REGEX_fullmatch (key : String) (s : String) : Bool :=
  if key = "phone" then phone_fullmatch s
  else if key = "aadhar" then aadhar_fullmatch s
  else if key = "passport" then passport_fullmatch s
  else if key = "upi_id" then upi_fullmatch s
  else false

def STANDALONE_PII_KEYS : List String := ["phone", "aadhar", "passport", "upi_id"]

def COMBINATORIAL_PII_KEYS : List String :=
  ["name", "email", "address", "ip_address", "device_id"]

/-- One iteration of the standalone pass: the field is marked when its name
is a standalone category and its string value fullmatches that category's
pattern (non-string values are ignored). -/
def standaloneHit (key : String) (v : Value) : Bool :=
  decide (key ∈ STANDALONE_PII_KEYS) &&
    (match v with | .str s => REGEX_fullmatch key s | _ => false)

/-- The keys marked by the standalone pass, in record order. -/
def standaloneKeys (data : Record) : List String :=
  (data.filter (fun kv => standaloneHit kv.1 kv.2)).map Prod.fst

/-- The per-category qualification filters of the combinatorial pass: a
string-valued `name` with no space character is skipped, a string-valued
`address` with fewer than three whitespace tokens is skipped; everything
else (any other category, and any non-string value) passes. -/
def combFilter (key : String) (v : Value) : Bool :=
  if key = "name" then
    match v with
    | .str s => decide (' ' ∈ s.data)
    | _ => true
  else if key = "address" then
    match v with
    | .str s => decide (3 ≤ (pySplit s).length)
    | _ => true
  else true

/-- A field qualifies for the combinatorial pass when its name is a
combinatorial category and the qualification filter does not skip it. -/
def combQualifies (key : String) (v : Value) : Bool :=
  decide (key ∈ COMBINATORIAL_PII_KEYS) && combFilter key v

/-- `found_combinatorial_keys`: the qualifying combinatorial keys, in record
order. -/
def foundCombinatorialKeys (data : Record) : List String :=
  (data.filter (fun kv => combQualifies kv.1 kv.2)).map Prod.fst

/-- The `is_pii` flag: some standalone hit, or at least two qualifying
combinatorial fields. -/
def isPiiFlag (data : Record) : Bool :=
  !(standaloneKeys data).isEmpty ||
    decide (2 ≤ (foundCombinatorialKeys data).length)

/-- `pii_keys_to_redact` (a Python set; only membership matters): the keys
marked by the standalone pass, plus, when the threshold is met, every
qualifying combinatorial key. -/
def piiKeysToRedact (data : Record) : List String :=
  standaloneKeys data ++
    (if 2 ≤ (foundCombinatorialKeys data).length
     then foundCombinatorialKeys data else [])

/-- The redaction step on one marked entry: a `None` value is left alone;
otherwise the value is stringified and passed to the dedicated transform
when one exists, or replaced by the generic fallback mask. -/
def redactEntry (key : String) (v : Value) : Option Value :=
  if v = Value.null then some v
  else
    match REDACTION_MAPPING key with
    | some f => (f (pyStr v)).map Value.str
    | none => some (Value.str (redact_generic key))

/-- Processing of one entry of the record copy: marked entries go through
`redactEntry`, unmarked entries are kept verbatim. -/
def processEntry (marked : List String) (kv : String × Value) :
    Option (String × Value) :=
  if kv.1 ∈ marked then (redactEntry kv.1 kv.2).map (fun w => (kv.1, w))
  else some kv

/-- Map an `Option`-valued function over a list, failing as soon as one
element fails (an uncaught exception aborts the whole call). -/
def mapOpt {α β : Type} (f : α → Option β) : List α → Option (List β)
  | [] => some []
  | x :: xs =>
    match f x, mapOpt f xs with
    | some y, some ys => some (y :: ys)
    | _, _ => none

/-- `process_record(data)`: the redacted record and the `is_pii` flag, or
`none` when a redaction transform raises. -/
def process_record (data : Record) : Option (Record × Bool) :=
  if isPiiFlag data then
    (mapOpt (processEntry (piiKeysToRedact data)) data).map (fun out => (out, true))
  else
    some (data, false)

example : redact_phone "9876543210" = "98XXXXXX10" := by decide

example : redact_email "jane.doe@example.com" = some "j******e@example.com" := by
  decide

example : process_record [("phone", Value.str "9876543210")] =
    some ([("phone", Value.str "98XXXXXX10")], true) := by decide

example : process_record [("upi_id", Value.str "user@bank")] =
    some ([("upi_id", Value.str "[REDACTED_UPI_ID]")], true) := by decide

example :
    process_record
      [("name", Value.str "Madhav Rao"), ("address", Value.str "221B Baker Street")] =
    some ([("name", Value.str "M***** R**"),
           ("address", Value.str "[REDACTED_ADDRESS]")], true) := by decide

example : process_record [("email", Value.str "@x"), ("ip_address", Value.str "10.0.0.5")] =
    none := by decide

example : process_record [("name", Value.str "Madhav")] =
    some ([("name", Value.str "Madhav")], false) := by decide

example : process_record [("aadhar", Value.str "123412341234")] =
    some ([("aadhar", Value.str "XXXXXXXX1234")], true) := by decide

/-- If `mapOpt` succeeds, every element of the input was mapped successfully
and its image is in the output. -/
theorem mapOpt_mem {α β : Type} (f : α → Option β) :
    ∀ {l : List α} {out : List β}, mapOpt f l = some out →
      ∀ {x : α}, x ∈ l → ∃ y, f x = some y ∧ y ∈ out := by
  intro l
  induction l with
  | nil =>
    intro out _ x hx
    cases hx
  | cons a l ih =>
    intro out h x hx
    rw [show mapOpt f (a :: l) =
          (match f a, mapOpt f l with
           | some y, some ys => some (y :: ys)
           | _, _ => none) from rfl] at h
    cases hfa : f a with
    | none =>
      rw [hfa] at h
      cases h
    | some y =>
      cases hrest : mapOpt f l with
      | none =>
        rw [hfa, hrest] at h
        cases h
      | some ys =>
        rw [hfa, hrest] at h
        have hout : y :: ys = out := by
          simpa using h
        cases hx with
        | head =>
          exact ⟨y, hfa, by rw [← hout]; exact List.mem_cons_self _ _⟩
        | tail _ hxl =>
          obtain ⟨z, hz1, hz2⟩ := ih hrest hxl
          exact ⟨z, hz1, by rw [← hout]; exact List.mem_cons_of_mem _ hz2⟩

/-- A list none of whose characters satisfies `p` is split into one chunk. -/
theorem splitAtP_eq_self {p : Char → Bool} :
    ∀ {l : List Char}, (∀ c ∈ l, p c = false) → splitAtP p l = [l] := by
  intro l
  induction l with
  | nil => intro _; rfl
  | cons c cs ih =>
    intro h
    have hc : p c = false := h c (List.mem_cons_self _ _)
    have hcs : splitAtP p cs = [cs] :=
      ih (fun x hx => h x (List.mem_cons_of_mem _ hx))
    simp [splitAtP, hc, hcs]

/-- A standalone hit on an entry puts its key into `standaloneKeys`. -/
theorem mem_standaloneKeys {data : Record} {kv : String × Value}
    (hmem : kv ∈ data) (hhit : standaloneHit kv.1 kv.2 = true) :
    kv.1 ∈ standaloneKeys data :=
  List.mem_map.mpr ⟨kv, List.mem_filter.mpr ⟨hmem, hhit⟩, rfl⟩

/-- A qualifying entry puts its key into `foundCombinatorialKeys`. -/
theorem mem_foundCombinatorialKeys {data : Record} {kv : String × Value}
    (hmem : kv ∈ data) (hq : combQualifies kv.1 kv.2 = true) :
    kv.1 ∈ foundCombinatorialKeys data :=
  List.mem_map.mpr ⟨kv, List.mem_filter.mpr ⟨hmem, hq⟩, rfl⟩

/-- A standalone hit raises the `is_pii` flag. -/
theorem isPiiFlag_of_standalone {data : Record} {kv : String × Value}
    (hmem : kv ∈ data) (hhit : standaloneHit kv.1 kv.2 = true) :
    isPiiFlag data = true := by
  have hk : kv.1 ∈ standaloneKeys data := mem_standaloneKeys hmem hhit
  have hne : standaloneKeys data ≠ [] := List.ne_nil_of_mem hk
  unfold isPiiFlag
  cases hemp : (standaloneKeys data).isEmpty with
  | false => rfl
  | true => exact absurd (List.isEmpty_iff.mp hemp) hne

/-- Meeting the combinatorial threshold raises the `is_pii` flag. -/
theorem isPiiFlag_of_threshold {data : Record}
    (h2 : 2 ≤ (foundCombinatorialKeys data).length) :
    isPiiFlag data = true := by
  unfold isPiiFlag
  rw [decide_eq_true h2]
  exact Bool.or_true _

/-- Standalone-marked keys are marked for redaction. -/
theorem mem_marked_of_standalone {data : Record} {k : String}
    (hk : k ∈ standaloneKeys data) : k ∈ piiKeysToRedact data :=
  List.mem_append_left _ hk

/-- When the threshold is met, qualifying keys are marked for redaction. -/
theorem mem_marked_of_found {data : Record} {k : String}
    (h2 : 2 ≤ (foundCombinatorialKeys data).length)
    (hk : k ∈ foundCombinatorialKeys data) : k ∈ piiKeysToRedact data := by
  unfold piiKeysToRedact
  rw [if_pos h2]
  exact List.mem_append_right _ hk

/-- When `process_record` succeeds on a flagged record, it flags the result
and applies the redaction step to every marked entry. -/
theorem process_record_marked {data : Record} {res : Record × Bool}
    (hres : process_record data = some res) (hflag : isPiiFlag data = true)
    {kv : String × Value} (hmem : kv ∈ data)
    (hmark : kv.1 ∈ piiKeysToRedact data) :
    res.2 = true ∧ ∃ w, redactEntry kv.1 kv.2 = some w ∧ (kv.1, w) ∈ res.1 := by
  unfold process_record at hres
  rw [hflag] at hres
  simp only [if_true] at hres
  cases hm : mapOpt (processEntry (piiKeysToRedact data)) data with
  | none =>
    rw [hm] at hres
    cases hres
  | some out =>
    rw [hm] at hres
    have hout : (out, true) = res := by simpa using hres
    obtain ⟨y, hy1, hy2⟩ := mapOpt_mem _ hm hmem
    unfold processEntry at hy1
    rw [if_pos hmark] at hy1
    cases hre : redactEntry kv.1 kv.2 with
    | none =>
      rw [hre] at hy1
      cases hy1
    | some w =>
      rw [hre] at hy1
      have hyw : (kv.1, w) = y := by simpa using hy1
      refine ⟨by rw [← hout], w, rfl, ?_⟩
      rw [← hout]
      rw [← hyw] at hy2
      exact hy2

/-- When `process_record` succeeds, unmarked entries are returned verbatim. -/
theorem process_record_unmarked {data : Record} {res : Record × Bool}
    (hres : process_record data = some res)
    {kv : String × Value} (hmem : kv ∈ data)
    (hmark : kv.1 ∉ piiKeysToRedact data) : kv ∈ res.1 := by
  unfold process_record at hres
  cases hflag : isPiiFlag data with
  | false =>
    rw [hflag] at hres
    simp only [Bool.false_eq_true, if_false] at hres
    have : (data, false) = res := by simpa using hres
    rw [← this]
    exact hmem
  | true =>
    rw [hflag] at hres
    simp only [if_true] at hres
    cases hm : mapOpt (processEntry (piiKeysToRedact data)) data with
    | none =>
      rw [hm] at hres
      cases hres
    | some out =>
      rw [hm] at hres
      have hout : (out, true) = res := by simpa using hres
      obtain ⟨y, hy1, hy2⟩ := mapOpt_mem _ hm hmem
      unfold processEntry at hy1
      rw [if_neg hmark] at hy1
      have : kv = y := by simpa using hy1
      rw [← hout]
      rw [← this] at hy2
      exact hy2

/-- The boolean returned by a successful `process_record` is the flag
computed by the two detection passes. -/
theorem process_record_flag {data : Record} {res : Record × Bool}
    (hres : process_record data = some res) : res.2 = isPiiFlag data := by
  unfold process_record at hres
  cases hflag : isPiiFlag data with
  | false =>
    rw [hflag] at hres
    simp only [Bool.false_eq_true, if_false] at hres
    have : (data, false) = res := by simpa using hres
    rw [← this]
  | true =>
    rw [hflag] at hres
    simp only [if_true] at hres
    cases hm : mapOpt (processEntry (piiKeysToRedact data)) data with
    | none =>
      rw [hm] at hres
      cases hres
    | some out =>
      rw [hm] at hres
      have : (out, true) = res := by simpa using hres
      rw [← this]

/-- When `process_record` succeeds, entries holding `null` are returned
verbatim, marked or not: the redaction loop skips `None` values. -/
theorem process_record_null {data : Record} {res : Record × Bool}
    (hres : process_record data = some res)
    {k : String} (hmem : (k, Value.null) ∈ data) : (k, Value.null) ∈ res.1 := by
  by_cases hmark : k ∈ piiKeysToRedact data
  · unfold process_record at hres
    cases hflag : isPiiFlag data with
    | false =>
      rw [hflag] at hres
      simp only [Bool.false_eq_true, if_false] at hres
      have : (data, false) = res := by simpa using hres
      rw [← this]
      exact hmem
    | true =>
      have h := process_record_marked hres hflag hmem hmark
      obtain ⟨_, w, hw1, hw2⟩ := h
      have : w = Value.null := by
        unfold redactEntry at hw1
        rw [if_pos rfl] at hw1
        simpa using hw1.symm
      rw [this] at hw2
      exact hw2
  · exact process_record_unmarked hres hmem hmark

/-- Claim C1: when the number of qualifying combinatorial fields is at least
two, `process_record` flags the record and applies the redaction step to
every qualifying field (not just two); when exactly one qualifying
combinatorial field is present and no standalone field matches,
`process_record` returns `is_pii = false` and the record unchanged. -/
theorem c1_combinatorial_threshold (data : Record) :
    (2 ≤ (foundCombinatorialKeys data).length →
      ∀ res, process_record data = some res →
        res.2 = true ∧
        ∀ kv ∈ data, kv.1 ∈ foundCombinatorialKeys data →
          ∃ w, redactEntry kv.1 kv.2 = some w ∧ (kv.1, w) ∈ res.1) ∧
    ((foundCombinatorialKeys data).length = 1 → standaloneKeys data = [] →
      process_record data = some (data, false)) := by
  constructor
  · intro h2 res hres
    have hflag := isPiiFlag_of_threshold h2
    refine ⟨(process_record_flag hres).trans hflag, ?_⟩
    intro kv hkv hkfound
    exact (process_record_marked hres hflag hkv
      (mem_marked_of_found h2 hkfound)).2
  · intro h1 h0
    have hflag : isPiiFlag data = false := by
      unfold isPiiFlag
      rw [h0, h1]
      rfl
    unfold process_record
    rw [hflag]
    simp

/-- Witness for C1: `{"email": "a@b.co", "ip_address": "10.0.0.5"}` has two
qualifying fields and is flagged, while `{"email": "a@b.co"}` alone is
returned unflagged and unchanged. -/
theorem c1_combinatorial_threshold_witness :
    (([("email", Value.str "aa@b.co"),
       ("ip_address", Value.str "[REDACTED_IP_ADDRESS]")], true) : Record × Bool).2
      = true ∧
    process_record [("email", Value.str "a@b.co")] =
      some ([("email", Value.str "a@b.co")], false) := by
  refine ⟨?_, ?_⟩
  · exact ((c1_combinatorial_threshold
      [("email", Value.str "a@b.co"), ("ip_address", Value.str "10.0.0.5")]).1
      (by decide)
      ([("email", Value.str "aa@b.co"),
        ("ip_address", Value.str "[REDACTED_IP_ADDRESS]")], true)
      (by decide)).1
  · exact (c1_combinatorial_threshold [("email", Value.str "a@b.co")]).2
      (by decide) (by decide)

/-- Claim C5: a `phone` field whose string value is exactly ten digits is
flagged standalone regardless of the other fields, and its redacted value
keeps the first two and last two characters around the fixed literal
`XXXXXX`; a digit string of any other length is not flagged by standalone
detection. -/
theorem c5_phone_standalone (data : Record) (v : String) :
    ((("phone", Value.str v) ∈ data) → v.data.length = 10 →
      v.data.all Char.isDigit = true →
      ∀ res, process_record data = some res →
        res.2 = true ∧
        ("phone", Value.str (strTake v 2 ++ "XXXXXX" ++
          strDropStart v (pyLen v - 2))) ∈ res.1) ∧
    (v.data.all Char.isDigit = true → v.data.length ≠ 10 →
      standaloneHit "phone" (Value.str v) = false) := by
  constructor
  · intro hmem hlen hdig res hres
    have hhit : standaloneHit "phone" (Value.str v) = true := by
      unfold standaloneHit REGEX_fullmatch phone_fullmatch
      simp [STANDALONE_PII_KEYS, hlen, hdig]
    have hflag := isPiiFlag_of_standalone hmem hhit
    have hmark : "phone" ∈ piiKeysToRedact data :=
      mem_marked_of_standalone (mem_standaloneKeys hmem hhit)
    have h := process_record_marked hres hflag hmem hmark
    refine ⟨h.1, ?_⟩
    obtain ⟨_, w, hw1, hw2⟩ := h
    have hw : redactEntry "phone" (Value.str v) =
        some (Value.str (redact_phone v)) := rfl
    rw [hw] at hw1
    have : w = Value.str (redact_phone v) := (Option.some.inj hw1).symm
    rw [this] at hw2
    exact hw2
  · intro hdig hlen
    have hbeq : (v.data.length == 10) = false := by
      simp only [beq_eq_false_iff_ne, ne_eq]
      exact hlen
    rw [show standaloneHit "phone" (Value.str v) =
        ((v.data.length == 10) && v.data.all Char.isDigit) from rfl]
    rw [hbeq]
    rfl

/-- Witness for C5: `{"phone": "9876543210"}` is flagged and redacted to
`98XXXXXX10`, while eleven digits are not flagged standalone. -/
theorem c5_phone_standalone_witness :
    (([("phone", Value.str "98XXXXXX10")], true) : Record × Bool).2 = true ∧
    ("phone", Value.str "98XXXXXX10") ∈
      ([("phone", Value.str "98XXXXXX10")] : Record) ∧
    standaloneHit "phone" (Value.str "98765432109") = false := by
  have h := (c5_phone_standalone [("phone", Value.str "9876543210")]
      "9876543210").1 (by decide) (by decide) (by decide)
      ([("phone", Value.str "98XXXXXX10")], true) (by decide)
  have e : strTake "9876543210" 2 ++ "XXXXXX" ++
      strDropStart "9876543210" (pyLen "9876543210" - 2) = "98XXXXXX10" := by
    decide
  refine ⟨h.1, ?_, (c5_phone_standalone [] "98765432109").2 (by decide) (by decide)⟩
  have h2 := h.2
  rw [e] at h2
  exact h2

/-- Claim C7: every standalone category except `upi_id` has a dedicated
transform in the redaction mapping, and a record whose `upi_id` field fully
matches the UPI pattern is flagged with the `upi_id` value replaced by the
generic fallback literal `[REDACTED_UPI_ID]`. -/
theorem c7_upi_fallback (data : Record) (v : String) :
    REDACTION_MAPPING "phone" ≠ none ∧
    REDACTION_MAPPING "aadhar" ≠ none ∧
    REDACTION_MAPPING "passport" ≠ none ∧
    REDACTION_MAPPING "upi_id" = none ∧
    redact_generic "upi_id" = "[REDACTED_UPI_ID]" ∧
    ((("upi_id", Value.str v) ∈ data) → upi_fullmatch v = true →
      ∀ res, process_record data = some res →
        res.2 = true ∧ ("upi_id", Value.str "[REDACTED_UPI_ID]") ∈ res.1) := by
  refine ⟨?_, ?_, ?_, rfl, rfl, ?_⟩
  · rw [show REDACTION_MAPPING "phone" =
        some (fun s => some (redact_phone s)) from rfl]
    simp
  · rw [show REDACTION_MAPPING "aadhar" =
        some (fun s => some (redact_aadhar s)) from rfl]
    simp
  · rw [show REDACTION_MAPPING "passport" = some redact_passport from rfl]
    simp
  · intro hmem hupi res hres
    have hhit : standaloneHit "upi_id" (Value.str v) = true := by
      rw [show standaloneHit "upi_id" (Value.str v) = upi_fullmatch v from rfl]
      exact hupi
    have hflag := isPiiFlag_of_standalone hmem hhit
    have hmark : "upi_id" ∈ piiKeysToRedact data :=
      mem_marked_of_standalone (mem_standaloneKeys hmem hhit)
    have h := process_record_marked hres hflag hmem hmark
    refine ⟨h.1, ?_⟩
    obtain ⟨_, w, hw1, hw2⟩ := h
    have hw : redactEntry "upi_id" (Value.str v) =
        some (Value.str "[REDACTED_UPI_ID]") := rfl
    rw [hw] at hw1
    have : w = Value.str "[REDACTED_UPI_ID]" := (Option.some.inj hw1).symm
    rw [this] at hw2
    exact hw2

/-- Witness for C7: `{"upi_id": "user@bank"}` is flagged and its value
becomes the generic fallback literal. -/
theorem c7_upi_fallback_witness :
    (([("upi_id", Value.str "[REDACTED_UPI_ID]")], true) : Record × Bool).2
      = true ∧
    ("upi_id", Value.str "[REDACTED_UPI_ID]") ∈
      ([("upi_id", Value.str "[REDACTED_UPI_ID]")] : Record) := by
  have h := (c7_upi_fallback [("upi_id", Value.str "user@bank")]
      "user@bank").2.2.2.2.2 (by decide) (by decide)
      ([("upi_id", Value.str "[REDACTED_UPI_ID]")], true) (by decide)
  exact ⟨h.1, h.2⟩

/-- Claim C8: a record none of whose field names belongs to the standalone
or combinatorial category sets is returned unflagged and value-equal to the
input, whatever its values. -/
theorem c8_unknown_fields (data : Record)
    (h : ∀ kv ∈ data,
      kv.1 ∉ STANDALONE_PII_KEYS ∧ kv.1 ∉ COMBINATORIAL_PII_KEYS) :
    process_record data = some (data, false) := by
  have h1 : standaloneKeys data = [] := by
    unfold standaloneKeys
    rw [List.filter_eq_nil_iff.mpr ?_]
    · rfl
    · intro a ha
      have hna := (h a ha).1
      simp [standaloneHit, hna]
  have h2 : foundCombinatorialKeys data = [] := by
    unfold foundCombinatorialKeys
    rw [List.filter_eq_nil_iff.mpr ?_]
    · rfl
    · intro a ha
      have hna := (h a ha).2
      simp [combQualifies, hna]
  have hflag : isPiiFlag data = false := by
    unfold isPiiFlag
    rw [h1, h2]
    rfl
  unfold process_record
  rw [hflag]
  simp

/-- Witness for C8: a record of unknown field names passes through. -/
theorem c8_unknown_fields_witness :
    process_record [("foo", Value.str "bar"), ("order_id", Value.num 7)] =
      some ([("foo", Value.str "bar"), ("order_id", Value.num 7)], false) :=
  c8_unknown_fields _ (by decide)

/-- Claim C9: every field not marked for redaction (neither a standalone
hit nor a qualifying combinatorial field with the threshold met) appears in
the returned record with its input value; only marked fields may differ. -/
theorem c9_frame_preservation (data : Record) (res : Record × Bool)
    (hres : process_record data = some res) :
    ∀ kv ∈ data, kv.1 ∉ piiKeysToRedact data → kv ∈ res.1 := by
  intro kv hkv hmark
  exact process_record_unmarked hres hkv hmark

/-- Witness for C9: in a flagged record, the unmarked field `foo` is
returned with its input value. -/
theorem c9_frame_preservation_witness :
    ("foo", Value.str "x") ∈
      ([("phone", Value.str "98XXXXXX10"), ("foo", Value.str "x")] : Record) :=
  c9_frame_preservation
    [("phone", Value.str "9876543210"), ("foo", Value.str "x")]
    ([("phone", Value.str "98XXXXXX10"), ("foo", Value.str "x")], true)
    (by decide) ("foo", Value.str "x") (by decide) (by decide)

/-- Claim C10: a combinatorial field holding `null` counts toward the
threshold but is skipped by the redaction loop, so a record mapping `email`
and `device_id` to `null` is flagged with every field unchanged. -/
theorem c10_null_counts (k : String) :
    (k ∈ COMBINATORIAL_PII_KEYS → combQualifies k Value.null = true) ∧
    redactEntry k Value.null = some Value.null ∧
    process_record [("email", Value.null), ("device_id", Value.null)] =
      some ([("email", Value.null), ("device_id", Value.null)], true) := by
  refine ⟨?_, ?_, by decide⟩
  · intro hk
    unfold combQualifies combFilter
    rw [decide_eq_true hk]
    simp only [Bool.true_and]
    split
    · rfl
    · split
      · rfl
      · rfl
  · unfold redactEntry
    rw [if_pos rfl]

/-- Witness for C10: a `null` in the `email` field qualifies. -/
theorem c10_null_counts_witness : combQualifies "email" Value.null = true :=
  (c10_null_counts "email").1 (by decide)

/-- The qualification filters only ever exclude string values. -/
theorem combFilter_of_nonstring {k : String} {v : Value}
    (hv : ∀ s, v ≠ Value.str s) : combFilter k v = true := by
  cases v with
  | str s => exact absurd rfl (hv s)
  | num n =>
    unfold combFilter
    split
    · rfl
    · split
      · rfl
      · rfl
  | bool b =>
    unfold combFilter
    split
    · rfl
    · split
      · rfl
      · rfl
  | null =>
    unfold combFilter
    split
    · rfl
    · split
      · rfl
      · rfl

/-- Counterexample to C2: a record whose every value is a number is flagged
(the two non-string combinatorial values are counted as qualifying) and both
values are changed by redaction, so a non-string field is neither ignored
nor passed through unchanged. -/
theorem c2_nonstring_counterexample :
    process_record [("email", Value.num 5), ("device_id", Value.num 7)] =
      some ([("email", Value.str "[REDACTED_EMAIL]"),
             ("device_id", Value.str "[REDACTED_DEVICE_ID]")], true) ∧
    (∀ s : String, Value.num 5 ≠ Value.str s) :=
  ⟨by decide, fun _ h => nomatch h⟩

/-- Claim C2 (amended): a non-string value is never flagged standalone, but
in a combinatorial field it does count as qualifying (the name and address
filters only exclude string values); only a `null` value is guaranteed to
pass through unchanged, while other non-string values are stringified and
redacted once the threshold is met. -/
theorem c2_nonstring_amended (data : Record) (k : String) (v : Value)
    (hmem : (k, v) ∈ data) (hv : ∀ s, v ≠ Value.str s) :
    standaloneHit k v = false ∧
    (k ∈ COMBINATORIAL_PII_KEYS → combQualifies k v = true) ∧
    (v = Value.null → ∀ res, process_record data = some res →
      (k, v) ∈ res.1) := by
  refine ⟨?_, ?_, ?_⟩
  · cases v with
    | str s => exact absurd rfl (hv s)
    | num n => simp [standaloneHit]
    | bool b => simp [standaloneHit]
    | null => simp [standaloneHit]
  · intro hk
    unfold combQualifies
    rw [decide_eq_true hk, combFilter_of_nonstring hv]
    rfl
  · intro hnull res hres
    subst hnull
    exact process_record_null hres hmem

/-- Witness for C2 (amended): a `null` email is not standalone, qualifies
combinatorially, and passes through unchanged. -/
theorem c2_nonstring_amended_witness :
    standaloneHit "email" Value.null = false ∧
    combQualifies "email" Value.null = true ∧
    ("email", Value.null) ∈ ([("email", Value.null)] : Record) := by
  have h := c2_nonstring_amended [("email", Value.null)] "email" Value.null
    (by decide) (fun _ h2 => nomatch h2)
  exact ⟨h.1, h.2.1 (by decide),
    h.2.2 rfl ([("email", Value.null)], false) (by decide)⟩

/-- `redact_passport` fails exactly on the empty string. -/
theorem redact_passport_eq_none_iff (s : String) :
    redact_passport s = none ↔ s.data = [] := by
  unfold redact_passport
  cases h : s.data with
  | nil => simp
  | cons c cs => simp

/-- `redact_email` fails exactly when the split yields an empty local part
and a domain: exactly one `'@'`, placed first. -/
theorem redact_email_eq_none_iff (s : String) :
    redact_email s = none ↔ ∃ d, pySplitOn '@' s = ["", d] := by
  unfold redact_email
  cases h : pySplitOn '@' s with
  | nil => simp
  | cons u rest =>
    cases rest with
    | nil => simp
    | cons d rest2 =>
      cases rest2 with
      | nil =>
        cases hu : u.data with
        | nil =>
          have hu2 : u = "" := String.ext (by rw [hu])
          subst hu2
          simp
        | cons c cs =>
          constructor
          · intro h2
            have h3 : (match u.data with
                | [] => (none : Option String)
                | c2 :: _ => some (String.mk [c2] ++ stars (pyLen u - 2) ++
                    strDropStart u (pyLen u - 1) ++ "@" ++ d)) = none := h2
            rw [hu] at h3
            simp at h3
          · rintro ⟨e, he⟩
            injection he with h1 h2
            rw [h1] at hu
            exact List.noConfusion hu
      | cons e rest3 => simp

/-- Counterexample to C3: `redact_passport` raises on the empty string, and
`process_record` raises (returns no result) on a mapping from field names to
strings when a qualifying email value has an empty local part. -/
theorem c3_totality_counterexample :
    redact_passport "" = none ∧
    process_record [("email", Value.str "@x"),
                    ("ip_address", Value.str "10.0.0.5")] = none := by
  decide

/-- Claim C3 (amended): `redact_phone`, `redact_aadhar`, `redact_name` and
`redact_generic` are total, but `redact_passport` raises exactly on the
empty string and `redact_email` raises exactly when splitting on `'@'`
yields an empty local part and a domain, so `process_record` can raise on a
mapping from field names to strings. -/
theorem c3_totality (s : String) :
    (redact_passport s = none ↔ s = "") ∧
    (redact_email s = none ↔ ∃ d, pySplitOn '@' s = ["", d]) :=
  ⟨(redact_passport_eq_none_iff s).trans String.ext_iff.symm,
   redact_email_eq_none_iff s⟩

/-- Claim C4: with exactly one `'@'` and a local part of length at least
two, the email mask keeps the local part's first and last characters around
`len(local) - 2` stars and leaves the domain untouched; with no `'@'` it
returns the fixed literal. -/
theorem c4_email_mask (s : String) :
    (∀ u d, pySplitOn '@' s = [u, d] → 2 ≤ pyLen u →
      redact_email s = some (strTake u 1 ++ stars (pyLen u - 2) ++
        strDropStart u (pyLen u - 1) ++ "@" ++ d)) ∧
    ('@' ∉ s.data → redact_email s = some "[REDACTED_EMAIL]") := by
  constructor
  · intro u d h h2
    unfold redact_email
    rw [h]
    show (match u.data with
        | [] => (none : Option String)
        | c :: _ => some (String.mk [c] ++ stars (pyLen u - 2) ++
            strDropStart u (pyLen u - 1) ++ "@" ++ d)) = _
    cases hu : u.data with
    | nil =>
      simp [pyLen, hu] at h2
    | cons c cs =>
      have ht : strTake u 1 = String.mk [c] := by
        unfold strTake
        rw [hu]
        rfl
      rw [ht]
  · intro hnotin
    have hchar : ∀ c ∈ s.data, (c == '@') = false := by
      intro c hc
      simp only [beq_eq_false_iff_ne, ne_eq]
      intro he
      exact hnotin (he ▸ hc)
    have hsplit : splitAtSep '@' s.data = [s.data] := splitAtP_eq_self hchar
    unfold redact_email pySplitOn
    rw [hsplit]
    rfl

/-- Witness for C4: `jane.doe@example.com` masks to
`j******e@example.com`, and a string with no `'@'` maps to the literal. -/
theorem c4_email_mask_witness :
    redact_email "jane.doe@example.com" = some "j******e@example.com" ∧
    redact_email "nodomain" = some "[REDACTED_EMAIL]" := by
  constructor
  · have h := (c4_email_mask "jane.doe@example.com").1 "jane.doe" "example.com"
      (by decide) (by decide)
    rw [h]
    decide
  · exact (c4_email_mask "nodomain").2 (by decide)

/-- Counterexample to C6: the name `"A\tB"` splits into two whitespace
tokens (it is multi-token), yet with a qualifying address the record is not
flagged and nothing is redacted, because the code's filter only looks for a
space character, not whitespace. -/
theorem c6_name_counterexample :
    (pySplit "A\tB").length = 2 ∧
    process_record [("name", Value.str "A\tB"),
                    ("address", Value.str "221B Baker Street")] =
      some ([("name", Value.str "A\tB"),
             ("address", Value.str "221B Baker Street")], false) := by
  decide

/-- Claim C6 (amended): a `name` value with no space character is excluded
from combinatorial qualification and one containing a space qualifies; a
qualifying name is redacted token by token, keeping each whitespace token's
first character followed by `len(token) - 1` stars, rejoined by single
spaces. -/
theorem c6_name_space_filter (s : String) (data : Record) :
    (' ' ∉ s.data → combQualifies "name" (Value.str s) = false) ∧
    (' ' ∈ s.data → combQualifies "name" (Value.str s) = true) ∧
    (("name", Value.str s) ∈ data → ' ' ∈ s.data →
      2 ≤ (foundCombinatorialKeys data).length →
      ∀ res, process_record data = some res →
        ("name", Value.str (String.intercalate " "
          ((pySplit s).map (fun p => strTake p 1 ++ stars (pyLen p - 1))))) ∈
          res.1) := by
  refine ⟨?_, ?_, ?_⟩
  · intro hns
    show (decide ("name" ∈ COMBINATORIAL_PII_KEYS) && decide (' ' ∈ s.data))
      = false
    rw [decide_eq_false hns]
    exact Bool.and_false _
  · intro hs
    show (decide ("name" ∈ COMBINATORIAL_PII_KEYS) && decide (' ' ∈ s.data))
      = true
    rw [decide_eq_true hs]
    rfl
  · intro hmem hs h2 res hres
    have hq : combQualifies "name" (Value.str s) = true := by
      show (decide ("name" ∈ COMBINATORIAL_PII_KEYS) && decide (' ' ∈ s.data))
        = true
      rw [decide_eq_true hs]
      rfl
    have hmark := mem_marked_of_found h2 (mem_foundCombinatorialKeys hmem hq)
    have hflag := isPiiFlag_of_threshold h2
    obtain ⟨_, w, hw1, hw2⟩ := process_record_marked hres hflag hmem hmark
    have hw : redactEntry "name" (Value.str s) =
        some (Value.str (redact_name s)) := rfl
    rw [hw] at hw1
    have : w = Value.str (redact_name s) := (Option.some.inj hw1).symm
    rw [this] at hw2
    exact hw2

/-- Witness for C6 (amended): `"Madhav"` is excluded, `"Madhav Rao"`
qualifies, and in the two-field example record the name is returned as
`M***** R**`. -/
theorem c6_name_space_filter_witness :
    combQualifies "name" (Value.str "Madhav") = false ∧
    combQualifies "name" (Value.str "Madhav Rao") = true ∧
    ("name", Value.str "M***** R**") ∈
      ([("name", Value.str "M***** R**"),
        ("address", Value.str "[REDACTED_ADDRESS]")] : Record) := by
  refine ⟨(c6_name_space_filter "Madhav" []).1 (by decide),
          (c6_name_space_filter "Madhav Rao" []).2.1 (by decide), ?_⟩
  have h := (c6_name_space_filter "Madhav Rao"
      [("name", Value.str "Madhav Rao"),
       ("address", Value.str "221B Baker Street")]).2.2
      (by decide) (by decide) (by decide)
      ([("name", Value.str "M***** R**"),
        ("address", Value.str "[REDACTED_ADDRESS]")], true)
      (by decide)
  have e : String.intercalate " " ((pySplit "Madhav Rao").map
      (fun p => strTake p 1 ++ stars (pyLen p - 1))) = "M***** R**" := by
    decide
  rw [e] at h
  exact h
